import Mathlib

/-!
Verification of `pkg/chain_iterator/block_batch_iterator.go` of the
taiko-client repository.

The Go code is shallowly embedded: block headers are records of a height and a
hash, the RPC client (`*rpc.EthClient`) becomes an abstract `Chain` record of
response functions, and each Go method becomes a Lean function returning its
result together with the mutated iterator state and the ordered list of
network / callback events it produced.  `uint64` heights are `Nat` with an
explicit `% 2 ^ 64` at the one place the Go code can overflow (the forward
batch-end addition); the subtractions in the Go code are all branch-guarded
and therefore never underflow.
-/

/-- The height range of `uint64`, the Go type of all block heights. -/
def UINT64MOD : Nat := 2 ^ 64

/-- `DefaultBlocksReadPerEpoch = 1000` from `block_batch_iterator.go`. -/
def DefaultBlocksReadPerEpoch : Nat := 1000

/-- `DefaultRetryInterval = 12 * time.Second`, in nanoseconds
(Go `time.Duration` counts nanoseconds). -/
def DefaultRetryInterval : Nat := 12 * 1000000000

/-- A block header, reduced to the two fields `block_batch_iterator.go`
reads: `Number` (the height) and `Hash()`.  Hashes are abstract `Nat`
identifiers. -/
structure Header where
  number : Nat
  hash : Nat
deriving DecidableEq, Repr

/-- Errors surfaced by the chain accessor or the iterator core.
`notFound` models `ethereum.NotFound`; `rpc` models any other connectivity
error; `callback` models an error returned by the `OnBlocksFunc`;
`reorgCheck` models the `fmt.Errorf("failed to check whether iterator.current
cursor has been reorged: %w", err)` wrapping in `iter` / `reverseIter`. -/
inductive IterErr where
  | notFound
  | rpc (code : Nat)
  | callback (code : Nat)
  | reorgCheck (e : IterErr)
deriving DecidableEq, Repr

/-- Equality of `Except` results is decidable when both component types have
decidable equality; needed to evaluate concrete runs with `decide`. -/
instance {ε α : Type} [DecidableEq ε] [DecidableEq α] :
    DecidableEq (Except ε α) := fun x y =>
  match x, y with
  | .ok a, .ok b =>
    if h : a = b then .isTrue (by rw [h]) else .isFalse (by simp [h])
  | .error a, .error b =>
    if h : a = b then .isTrue (by rw [h]) else .isFalse (by simp [h])
  | .ok _, .error _ => .isFalse (by simp)
  | .error _, .ok _ => .isFalse (by simp)

/-- The chain accessor interface consumed by the iterator
(`ChainID`, `HeaderByNumber`, `HeaderByHash`, `BlockNumber` on
`*rpc.EthClient`).  `headerByNumber none` is the lookup of the latest header
(Go passes a nil `*big.Int`). -/
structure Chain where
  chainID : Except IterErr Nat
  headerByNumber : Option Nat → Except IterErr Header
  headerByHash : Nat → Except IterErr Header
  blockNumber : Except IterErr Nat

/-- One RPC round trip performed against the chain accessor. -/
inductive RpcCall where
  | chainID
  | headerByNumber (h : Option Nat)
  | headerByHash (h : Nat)
  | blockNumber
deriving DecidableEq, Repr

/-- Observable events of one epoch: network calls and callback invocations
(with the start / end headers the callback received). -/
inductive Event where
  | rpc (c : RpcCall)
  | onBlocks (start finish : Header)
deriving DecidableEq, Repr

/-- What one invocation of the consumer callback (`OnBlocksFunc`) did:
the sequence of arguments it passed to `UpdateCurrentFunc` (a `none` entry is
Go's nil-header call, a warned no-op), whether it invoked `EndIterFunc`, and
the error value it returned (`none` = nil). -/
structure CbEffect where
  updates : List (Option Header)
  endIter : Bool
  err : Option Nat
deriving DecidableEq, Repr

/-- The consumer callback, determined by the batch boundary headers it is
invoked with. -/
def OnBlocksFunc : Type := Header → Header → CbEffect

/-- The iterator state (`BlockBatchIterator` struct).  `ctx`, `client` and
`onBlocks` are passed as parameters instead of stored; the remaining fields
are kept.  `isEnd` is the latch set by the `end` capability. -/
structure BlockBatchIterator where
  chainID : Nat
  blocksReadPerEpoch : Nat
  startHeight : Nat
  endHeight : Option Nat
  current : Header
  isEnd : Bool
  reverse : Bool
  reorgRewindDepth : Nat
  retryInterval : Nat
deriving DecidableEq, Repr

/-- `BlockBatchIteratorConfig`.  Pointer-typed Go fields become `Option`s;
`clientPresent` / `onBlocksPresent` model whether the nil-checked `Client` /
`OnBlocks` fields are set. -/
structure BlockBatchIteratorConfig where
  clientPresent : Bool
  maxBlocksReadPerEpoch : Option Nat
  startHeight : Option Nat
  endHeight : Option Nat
  onBlocksPresent : Bool
  reverse : Bool
  reorgRewindDepth : Option Nat
  retryInterval : Option Nat
deriving DecidableEq, Repr

/-- Construction errors, one per `return nil, err` site of
`NewBlockBatchIterator`, in source order. -/
inductive NewIterErr where
  | invalidClient
  | invalidCallback
  | chainIDLookup (e : IterErr)
  | invalidStartHeight
  | startAboveEnd
  | startHeaderLookup (e : IterErr)
  | missingEndHeight
  | endHeaderLookup (e : IterErr)
deriving DecidableEq, Repr

/-- `NewBlockBatchIterator`: validates the config, fetches the chain ID, the
start-height header and the end header (nil end height = latest), and builds
the iterator.  The returned list is the ordered network calls performed.
Note that the source never copies `cfg.ReorgRewindDepth` into the iterator,
so the `reorgRewindDepth` field keeps Go's zero value. -/
def NewBlockBatchIterator (chain : Chain) (cfg : BlockBatchIteratorConfig) :
    Except NewIterErr BlockBatchIterator × List Event :=
  if !cfg.clientPresent then (.error .invalidClient, [])
  else if !cfg.onBlocksPresent then (.error .invalidCallback, [])
  else
    match chain.chainID with
    | .error e => (.error (.chainIDLookup e), [.rpc .chainID])
    | .ok cid =>
      match cfg.startHeight with
      | none => (.error .invalidStartHeight, [.rpc .chainID])
      | some s =>
        if (match cfg.endHeight with
            | some e => decide (e < s)
            | none => false) then
          (.error .startAboveEnd, [.rpc .chainID])
        else
          match chain.headerByNumber (some s) with
          | .error e =>
            (.error (.startHeaderLookup e),
             [.rpc .chainID, .rpc (.headerByNumber (some s))])
          | .ok startHeader =>
            if cfg.reverse && cfg.endHeight.isNone then
              (.error .missingEndHeight,
               [.rpc .chainID, .rpc (.headerByNumber (some s))])
            else
              match chain.headerByNumber cfg.endHeight with
              | .error e =>
                (.error (.endHeaderLookup e),
                 [.rpc .chainID, .rpc (.headerByNumber (some s)),
                  .rpc (.headerByNumber cfg.endHeight)])
              | .ok endHeader =>
                (.ok
                  { chainID := cid
                    blocksReadPerEpoch :=
                      cfg.maxBlocksReadPerEpoch.getD DefaultBlocksReadPerEpoch
                    startHeight := s
                    endHeight := cfg.endHeight
                    current := if cfg.reverse then endHeader else startHeader
                    isEnd := false
                    reverse := cfg.reverse
                    reorgRewindDepth := 0
                    retryInterval := cfg.retryInterval.getD DefaultRetryInterval },
                 [.rpc .chainID, .rpc (.headerByNumber (some s)),
                  .rpc (.headerByNumber cfg.endHeight)])

/-- The `UpdateCurrentFunc` capability: a nil header is a warned no-op,
otherwise the cursor is replaced. -/
def updateCurrent (cur : Header) (h : Option Header) : Header :=
  match h with
  | none => cur
  | some newCur => newCur

/-- `rewindOnReorgDetected`: step the cursor back `reorgRewindDepth` blocks
(floored at 0) and refetch the header at that height. -/
def rewindOnReorgDetected (chain : Chain) (i : BlockBatchIterator) :
    Except IterErr BlockBatchIterator × List Event :=
  let newCurrentHeight :=
    if i.current.number ≤ i.reorgRewindDepth then 0
    else i.current.number - i.reorgRewindDepth
  match chain.headerByNumber (some newCurrentHeight) with
  | .error e => (.error e, [.rpc (.headerByNumber (some newCurrentHeight))])
  | .ok h =>
    (.ok { i with current := h }, [.rpc (.headerByNumber (some newCurrentHeight))])

/-- `ensureCurrentNotReorged`: look the cursor up by hash; a found header
means no reorg, a `notFound` outcome triggers the rewind, any other error is
surfaced. -/
def ensureCurrentNotReorged (chain : Chain) (i : BlockBatchIterator) :
    Except IterErr BlockBatchIterator × List Event :=
  match chain.headerByHash i.current.hash with
  | .ok _ => (.ok i, [.rpc (.headerByHash i.current.hash)])
  | .error .notFound =>
    match rewindOnReorgDetected chain i with
    | (r, ev) => (r, .rpc (.headerByHash i.current.hash) :: ev)
  | .error e => (.error e, [.rpc (.headerByHash i.current.hash)])

/-- The three control-flow outcomes of one epoch: `cont` is the sentinel
`errContinue`, `eof` is `io.EOF` (range exhausted), `err` is any other
error. -/
inductive IterOutcome where
  | cont
  | eof
  | err (e : IterErr)
deriving DecidableEq, Repr

/-- One forward epoch (`BlockBatchIterator.iter`): reorg check, destination
height (configured end or fresh chain head), exhaustion check, batch-end
clamp, end-header fetch, callback, cursor advance. -/
def iter (chain : Chain) (onBlocks : OnBlocksFunc) (i0 : BlockBatchIterator) :
    IterOutcome × BlockBatchIterator × List Event :=
  match ensureCurrentNotReorged chain i0 with
  | (.error e, ev0) => (.err (.reorgCheck e), i0, ev0)
  | (.ok i, ev0) =>
    match (match i.endHeight with
           | some d => ((.ok d : Except IterErr Nat), ([] : List Event))
           | none =>
             match chain.blockNumber with
             | .ok n => (.ok n, [.rpc .blockNumber])
             | .error e => (.error e, [.rpc .blockNumber])) with
    | (.error e, ev1) => (.err e, i, ev0 ++ ev1)
    | (.ok destHeight, ev1) =>
      if destHeight ≤ i.current.number then (.eof, i, ev0 ++ ev1)
      else
        let endHeight0 := (i.current.number + i.blocksReadPerEpoch) % UINT64MOD
        let endHeight := if destHeight ≤ endHeight0 then destHeight else endHeight0
        let isLastEpoch : Bool := decide (destHeight ≤ endHeight0)
        match chain.headerByNumber (some endHeight) with
        | .error e =>
          (.err e, i, ev0 ++ ev1 ++ [.rpc (.headerByNumber (some endHeight))])
        | .ok endHeader =>
          let r := onBlocks i.current endHeader
          let i1 := { i with
            current := r.updates.foldl updateCurrent i.current
            isEnd := i.isEnd || r.endIter }
          let ev2 := ev0 ++ ev1 ++
            [.rpc (.headerByNumber (some endHeight)), .onBlocks i.current endHeader]
          match r.err with
          | some c => (.err (.callback c), i1, ev2)
          | none =>
            if i1.isEnd then (.eof, i1, ev2)
            else
              let i2 := { i1 with current := endHeader }
              if !isLastEpoch && !i2.isEnd then (.cont, i2, ev2)
              else (.eof, i2, ev2)

/-- One reverse epoch (`BlockBatchIterator.reverseIter`): reorg check,
exhaustion check against the configured start height, batch-start clamp
(floored at 0), start-header fetch, callback, cursor retreat.  Unlike the
forward path there is no early `isEnd` return before the cursor
assignment. -/
def reverseIter (chain : Chain) (onBlocks : OnBlocksFunc)
    (i0 : BlockBatchIterator) : IterOutcome × BlockBatchIterator × List Event :=
  match ensureCurrentNotReorged chain i0 with
  | (.error e, ev0) => (.err (.reorgCheck e), i0, ev0)
  | (.ok i, ev0) =>
    if i.current.number ≤ i.startHeight then (.eof, i, ev0)
    else
      let startHeight0 :=
        if i.current.number ≤ i.blocksReadPerEpoch then 0
        else i.current.number - i.blocksReadPerEpoch
      let startHeight :=
        if startHeight0 ≤ i.startHeight then i.startHeight else startHeight0
      let isLastEpoch : Bool := decide (startHeight0 ≤ i.startHeight)
      match chain.headerByNumber (some startHeight) with
      | .error e =>
        (.err e, i, ev0 ++ [.rpc (.headerByNumber (some startHeight))])
      | .ok startHeader =>
        let r := onBlocks startHeader i.current
        let i1 := { i with
          current := r.updates.foldl updateCurrent i.current
          isEnd := i.isEnd || r.endIter }
        let ev2 := ev0 ++
          [.rpc (.headerByNumber (some startHeight)), .onBlocks startHeader i.current]
        match r.err with
        | some c => (.err (.callback c), i1, ev2)
        | none =>
          let i2 := { i1 with current := startHeader }
          if !isLastEpoch && !i2.isEnd then (.cont, i2, ev2)
          else (.eof, i2, ev2)

/-- The environment one epoch attempt of the driver runs in: the chain
accessor's current responses and the consumer callback. -/
structure EpochEnv where
  chain : Chain
  cb : OnBlocksFunc

/-- The world the `Iter` driver runs in: a per-attempt environment (so the
chain may change between attempts, modelling reorgs) and the attempt index
from which the context is cancelled (`none` = never). -/
structure IterWorld where
  cancelAt : Option Nat
  envs : Nat → EpochEnv

/-- Whether `ctx.Err()` is non-nil at attempt `k`; cancellation is monotone
and constant within an attempt. -/
def ctxCancelled (w : IterWorld) (k : Nat) : Bool :=
  match w.cancelAt with
  | none => false
  | some c => decide (c ≤ k)

/-- The value the whole `Iter` call returns: nil, the pending cancellation
error, or a propagated error. -/
inductive IterReturn where
  | ok
  | ctxErr
  | err (e : IterErr)
deriving DecidableEq, Repr

/-- One epoch attempt of the driver, choosing `iter` or `reverseIter` by the
configured direction (the `iterFunc` selection in `Iter`). -/
def epochStep (w : IterWorld) (k : Nat) (i : BlockBatchIterator) :
    IterOutcome × BlockBatchIterator × List Event :=
  (if i.reverse then reverseIter else iter) (w.envs k).chain (w.envs k).cb i

/-- The `Iter` driver: before every attempt it checks cancellation (breaking
out and surfacing `ctx.Err()`); `io.EOF` breaks out and `Iter` then returns
the (still nil) `ctx.Err()`; `errContinue` loops immediately and any other
error is retried after the constant backoff interval
(`backoff.NewConstantBackOff` never stops, so errors always loop).  `fuel`
bounds the number of attempts; `none` means the bound was reached. -/
def IterRun (w : IterWorld) :
    Nat → Nat → BlockBatchIterator →
    Option (IterReturn × BlockBatchIterator × List Event)
  | 0, _, _ => none
  | fuel + 1, k, i =>
    if ctxCancelled w k then some (.ctxErr, i, [])
    else
      match epochStep w k i with
      | (.eof, i2, ev) => some (.ok, i2, ev)
      | (.cont, i2, ev) =>
        match IterRun w fuel (k + 1) i2 with
        | none => none
        | some (r, i3, ev2) => some (r, i3, ev ++ ev2)
      | (.err _, i2, ev) =>
        match IterRun w fuel (k + 1) i2 with
        | none => none
        | some (r, i3, ev2) => some (r, i3, ev ++ ev2)

/-! ## Concrete test chains and callbacks -/

/-- A reorg-free chain whose header at height `n` has hash `n`; every hash
lookup succeeds, `blockNumber` and the latest header sit at `tip`. -/
def flatChain (tip : Nat) : Chain where
  chainID := .ok 1
  headerByNumber := fun n =>
    match n with
    | none => .ok { number := tip, hash := tip }
    | some m => .ok { number := m, hash := m }
  headerByHash := fun h => .ok { number := h, hash := h }
  blockNumber := .ok tip

/-- A callback that succeeds without using either capability. -/
def nopCb : OnBlocksFunc := fun _ _ =>
  { updates := [], endIter := false, err := none }

/-- A callback that replaces the cursor with the header `(7, 999)` and then
returns nil without ending the iteration. -/
def overrideCb : OnBlocksFunc := fun _ _ =>
  { updates := [some { number := 7, hash := 999 }], endIter := false, err := none }

/-- A forward-mode iterator state whose cursor sits at height `h` of a
`flatChain`, with batch size `B`, start height `S` and configured end
height `E`. -/
def fwdState (B S E h : Nat) : BlockBatchIterator where
  chainID := 1
  blocksReadPerEpoch := B
  startHeight := S
  endHeight := some E
  current := { number := h, hash := h }
  isEnd := false
  reverse := false
  reorgRewindDepth := 0
  retryInterval := DefaultRetryInterval

/-- A world with no cancellation and the same chain / callback at every
attempt. -/
def plainWorld (c : Chain) (f : OnBlocksFunc) : IterWorld where
  cancelAt := none
  envs := fun _ => { chain := c, cb := f }

/-! ## C1: the update-cursor capability versus the end-of-epoch assignment -/

/-- C1 (counterexample).  The callback invokes update-cursor with the non-nil
header `(7, 999)` during an epoch, returns nil and does not end the
iteration; the epoch continues (so epoch N+1 exists), yet the cursor at the
start of epoch N+1 is the end-of-epoch boundary header `(1, 1)` — the Core
assignment at the end of `iter` overwrites the callback's replacement — and
not the supplied header, contrary to the claim. -/
theorem c1_counterexample :
    (iter (flatChain 10) overrideCb (fwdState 1 0 10 0)).1 = .cont ∧
    (iter (flatChain 10) overrideCb (fwdState 1 0 10 0)).2.1.current =
      { number := 1, hash := 1 } ∧
    (iter (flatChain 10) overrideCb (fwdState 1 0 10 0)).2.1.current ≠
      { number := 7, hash := 999 } := by
  decide

/-- C1 (amended).  In a forward epoch that reaches the callback (no reorg,
cursor below the destination, boundary fetch succeeds) with the cursor latch
clear, a callback that invokes update-cursor (folding its updates over the
cursor yields `H`) has its override overwritten: if it returns nil without
ending the iteration the cursor after the epoch is the end-of-epoch boundary
header `eh`, not `H`; the override persists into the next (retried) epoch
only when the callback also returns an error. -/
theorem c1_amended_override_clobbered
    (chain : Chain) (cbOk cbFail : OnBlocksFunc) (i : BlockBatchIterator)
    (d eH c : Nat) (hh eh H : Header) (us : List (Option Header))
    (hhash : chain.headerByHash i.current.hash = .ok hh)
    (hend : i.endHeight = some d)
    (hlt : i.current.number < d)
    (heH : eH = if d ≤ (i.current.number + i.blocksReadPerEpoch) % UINT64MOD
                then d else (i.current.number + i.blocksReadPerEpoch) % UINT64MOD)
    (hfetch : chain.headerByNumber (some eH) = .ok eh)
    (hupd : us.foldl updateCurrent i.current = H)
    (hcbOk : cbOk i.current eh = { updates := us, endIter := false, err := none })
    (hcbFail : cbFail i.current eh = { updates := us, endIter := false, err := some c })
    (hnoEnd : i.isEnd = false) :
    (iter chain cbOk i).2.1.current = eh ∧
    (iter chain cbFail i).2.1.current = H ∧
    (iter chain cbFail i).1 = .err (.callback c) := by
  have hnle : ¬ d ≤ i.current.number := by omega
  subst heH
  refine ⟨?_, ?_, ?_⟩
  all_goals
    simp only [iter, ensureCurrentNotReorged, hhash, hend, hfetch, hcbOk, hcbFail,
      hupd, hnoEnd, hnle, if_false, Bool.or_false, if_true]
    repeat' first
      | rfl
      | (split <;> try simp_all)

/-- A callback that replaces the cursor with `(7, 999)` and then aborts the
epoch with error code 5 (without ending the iteration). -/
def overrideFailCb : OnBlocksFunc := fun _ _ =>
  { updates := [some { number := 7, hash := 999 }], endIter := false, err := some 5 }

/-- C1 (witness).  The amended statement at a concrete input: boundary header
`(1, 1)` wins over the override `(7, 999)` when the callback succeeds, and
the override survives when the callback errors. -/
theorem c1_amended_witness :
    (iter (flatChain 10) overrideCb (fwdState 1 0 10 0)).2.1.current =
      { number := 1, hash := 1 } ∧
    (iter (flatChain 10) overrideFailCb (fwdState 1 0 10 0)).2.1.current =
      { number := 7, hash := 999 } ∧
    (iter (flatChain 10) overrideFailCb (fwdState 1 0 10 0)).1 =
      .err (.callback 5) :=
  c1_amended_override_clobbered (flatChain 10) overrideCb overrideFailCb
    (fwdState 1 0 10 0) 10 1 5 { number := 0, hash := 0 } { number := 1, hash := 1 }
    { number := 7, hash := 999 } [some { number := 7, hash := 999 }]
    rfl rfl (by decide) (by decide) rfl rfl rfl rfl rfl

/-! ## C2: the configured reorg rewind depth is never applied -/

/-- A chain after a reorg: the cursor's old hash resolves to nothing, headers
refetched by number carry fresh hashes `n + 1000`. -/
def reorgChain : Chain where
  chainID := .ok 1
  headerByNumber := fun n =>
    match n with
    | none => .ok { number := 100, hash := 1100 }
    | some m => .ok { number := m, hash := m + 1000 }
  headerByHash := fun _ => .error .notFound
  blockNumber := .ok 100

/-- A config that asks for a reorg rewind depth of 5 blocks. -/
def cfgC2 : BlockBatchIteratorConfig where
  clientPresent := true
  maxBlocksReadPerEpoch := none
  startHeight := some 10
  endHeight := some 100
  onBlocksPresent := true
  reverse := false
  reorgRewindDepth := some 5
  retryInterval := none

/-- The iterator `NewBlockBatchIterator` builds from `cfgC2` on
`reorgChain`: note `reorgRewindDepth = 0` although the config asked for 5 —
the constructor never copies `cfg.ReorgRewindDepth`. -/
def itC2 : BlockBatchIterator where
  chainID := 1
  blocksReadPerEpoch := 1000
  startHeight := 10
  endHeight := some 100
  current := { number := 10, hash := 1010 }
  isEnd := false
  reverse := false
  reorgRewindDepth := 0
  retryInterval := DefaultRetryInterval

/-- C2 (code bug, evaluated).  With `ReorgRewindDepth = 5` configured and the
cursor at height 10 whose hash is reported not-found, the constructor leaves
the iterator's rewind depth at 0, and the rewind refetches height 10
(`10 − 0`) instead of `max(0, 10 − 5) = 5` as the claim (and the config
field's purpose) requires; the rewound cursor is the fresh header at the
same height. -/
theorem c2_rewind_depth_ignored :
    (NewBlockBatchIterator reorgChain cfgC2).1 = .ok itC2 ∧
    itC2.reorgRewindDepth = 0 ∧
    (ensureCurrentNotReorged reorgChain itC2).2 =
      [.rpc (.headerByHash 1010), .rpc (.headerByNumber (some 10))] ∧
    (ensureCurrentNotReorged reorgChain itC2).1 =
      .ok { itC2 with current := { number := 10, hash := 1010 } } ∧
    (ensureCurrentNotReorged reorgChain itC2).2 ≠
      [.rpc (.headerByHash 1010), .rpc (.headerByNumber (some 5))] := by
  decide

/-! ## C4: reverse mode without end height fails, but not before network calls -/

/-- A reverse-mode config with no end height. -/
def cfgRevNoEnd : BlockBatchIteratorConfig where
  clientPresent := true
  maxBlocksReadPerEpoch := none
  startHeight := some 3
  endHeight := none
  onBlocksPresent := true
  reverse := true
  reorgRewindDepth := none
  retryInterval := none

/-- C4 (counterexample).  Constructing with reverse mode and no end height
does fail with the missing-end-height configuration error, but only after
network calls have been made: the call list is non-empty and contains both
the `ChainID` fetch and the start-header lookup, contrary to the claim that
no ChainID or header lookup is performed. -/
theorem c4_counterexample :
    (NewBlockBatchIterator (flatChain 10) cfgRevNoEnd).1 =
      .error .missingEndHeight ∧
    (NewBlockBatchIterator (flatChain 10) cfgRevNoEnd).2 ≠ [] ∧
    Event.rpc .chainID ∈ (NewBlockBatchIterator (flatChain 10) cfgRevNoEnd).2 ∧
    Event.rpc (.headerByNumber (some 3)) ∈
      (NewBlockBatchIterator (flatChain 10) cfgRevNoEnd).2 := by
  decide

/-- C4 (amended).  With reverse mode and no end height (client and callback
present), construction fails with the missing-end-height configuration
error before the end-header lookup — but after the chain-ID fetch and the
start-header lookup, which are exactly the two network calls performed. -/
theorem c4_amended_config_error_after_lookups
    (chain : Chain) (cfg : BlockBatchIteratorConfig) (s cid : Nat) (sh : Header)
    (hclient : cfg.clientPresent = true)
    (hcb : cfg.onBlocksPresent = true)
    (hrev : cfg.reverse = true)
    (hnoend : cfg.endHeight = none)
    (hcid : chain.chainID = .ok cid)
    (hstart : cfg.startHeight = some s)
    (hsh : chain.headerByNumber (some s) = .ok sh) :
    NewBlockBatchIterator chain cfg =
      (.error .missingEndHeight,
       [.rpc .chainID, .rpc (.headerByNumber (some s))]) := by
  simp [NewBlockBatchIterator, hclient, hcb, hrev, hnoend, hcid, hstart, hsh]

/-- C4 (witness). -/
theorem c4_amended_witness :
    NewBlockBatchIterator (flatChain 10) cfgRevNoEnd =
      (.error .missingEndHeight,
       [.rpc .chainID, .rpc (.headerByNumber (some 3))]) :=
  c4_amended_config_error_after_lookups (flatChain 10) cfgRevNoEnd 3 1
    { number := 3, hash := 3 } rfl rfl rfl rfl rfl rfl rfl

/-! ## C5: re-signalling range-exhausted still performs the reorg check -/

/-- A reverse-mode iterator state on a `flatChain`, cursor at height `h`. -/
def revState (B S E h : Nat) : BlockBatchIterator where
  chainID := 1
  blocksReadPerEpoch := B
  startHeight := S
  endHeight := some E
  current := { number := h, hash := h }
  isEnd := false
  reverse := true
  reorgRewindDepth := 0
  retryInterval := DefaultRetryInterval

/-- C5 (counterexample).  With the range already fully traversed
(cursor height 5 ≥ configured destination 5), invoking another forward epoch
does immediately re-signal range-exhausted — but it is not free of network
calls: the epoch performs the reorg-check hash lookup, so the event list is
non-empty, contrary to the claim. -/
theorem c5_counterexample :
    (iter (flatChain 5) nopCb (fwdState 2 0 5 5)).1 = .eof ∧
    (iter (flatChain 5) nopCb (fwdState 2 0 5 5)).2.2 =
      [.rpc (.headerByHash 5)] ∧
    (iter (flatChain 5) nopCb (fwdState 2 0 5 5)).2.2 ≠ [] := by
  decide

/-- C5 (amended).  Once the range is fully traversed (forward with a
configured end height: cursor ≥ destination; reverse: cursor ≤ start), any
further epoch re-signals range-exhausted with the state unchanged and without
invoking the callback or fetching any boundary header — the only network
call performed is the per-epoch reorg check's hash lookup. -/
theorem c5_amended_exhausted_reorg_check_only
    (chain : Chain) (cb : OnBlocksFunc) (i j : BlockBatchIterator)
    (d : Nat) (hi hj : Header)
    (hihash : chain.headerByHash i.current.hash = .ok hi)
    (hiend : i.endHeight = some d)
    (hiex : d ≤ i.current.number)
    (hjhash : chain.headerByHash j.current.hash = .ok hj)
    (hjex : j.current.number ≤ j.startHeight) :
    iter chain cb i = (.eof, i, [.rpc (.headerByHash i.current.hash)]) ∧
    reverseIter chain cb j = (.eof, j, [.rpc (.headerByHash j.current.hash)]) := by
  constructor
  · simp [iter, ensureCurrentNotReorged, hihash, hiend, hiex]
  · simp [reverseIter, ensureCurrentNotReorged, hjhash, hjex]

/-- C5 (witness). -/
theorem c5_amended_witness :
    iter (flatChain 5) nopCb (fwdState 2 0 5 5) =
      (.eof, fwdState 2 0 5 5, [.rpc (.headerByHash 5)]) ∧
    reverseIter (flatChain 9) nopCb (revState 2 3 9 3) =
      (.eof, revState 2 3 9 3, [.rpc (.headerByHash 3)]) :=
  c5_amended_exhausted_reorg_check_only (flatChain 5) nopCb
    (fwdState 2 0 5 5) (revState 2 3 9 3) 5
    { number := 5, hash := 5 } { number := 3, hash := 3 }
    rfl rfl (by decide) rfl (by decide)

/-! ## C6: the end-iteration capability stops the run -/

/-- C6.  If the callback invokes end-iteration (and returns nil) during an
epoch that reached it — forward state `i` at attempt `k`, reverse state `j`
at attempt `kr`, neither attempt cancelled — that epoch signals
range-exhausted, the driver performs no further epoch (the result is
independent of the remaining fuel, so no epoch N+1 boundary computation ever
happens) and `Iter` returns successfully, regardless of whether more blocks
remain in the range. -/
theorem c6_end_iteration_honored
    (w : IterWorld) (k kr : Nat) (i j : BlockBatchIterator)
    (d eH sH : Nat) (hi hj eh sh : Header) (usF usR : List (Option Header))
    (hcancel : ctxCancelled w k = false)
    (hcancelr : ctxCancelled w kr = false)
    (hirev : i.reverse = false)
    (hihash : (w.envs k).chain.headerByHash i.current.hash = .ok hi)
    (hiend : i.endHeight = some d)
    (hilt : i.current.number < d)
    (heH : eH = if d ≤ (i.current.number + i.blocksReadPerEpoch) % UINT64MOD
                then d else (i.current.number + i.blocksReadPerEpoch) % UINT64MOD)
    (hifetch : (w.envs k).chain.headerByNumber (some eH) = .ok eh)
    (hicb : (w.envs k).cb i.current eh =
      { updates := usF, endIter := true, err := none })
    (hjrev : j.reverse = true)
    (hjhash : (w.envs kr).chain.headerByHash j.current.hash = .ok hj)
    (hjgt : j.startHeight < j.current.number)
    (hsH : sH = if (if j.current.number ≤ j.blocksReadPerEpoch then 0
                    else j.current.number - j.blocksReadPerEpoch) ≤ j.startHeight
                then j.startHeight
                else if j.current.number ≤ j.blocksReadPerEpoch then 0
                     else j.current.number - j.blocksReadPerEpoch)
    (hjfetch : (w.envs kr).chain.headerByNumber (some sH) = .ok sh)
    (hjcb : (w.envs kr).cb sh j.current =
      { updates := usR, endIter := true, err := none }) :
    (∀ fuel, IterRun w (fuel + 1) k i =
      some (.ok,
        { i with current := usF.foldl updateCurrent i.current, isEnd := true },
        [.rpc (.headerByHash i.current.hash), .rpc (.headerByNumber (some eH)),
         .onBlocks i.current eh])) ∧
    (∀ fuel, IterRun w (fuel + 1) kr j =
      some (.ok, { j with current := sh, isEnd := true },
        [.rpc (.headerByHash j.current.hash), .rpc (.headerByNumber (some sH)),
         .onBlocks sh j.current])) := by
  have hinle : ¬ d ≤ i.current.number := by omega
  have hjnle : ¬ j.current.number ≤ j.startHeight := by omega
  subst heH hsH
  constructor
  · intro fuel
    simp [IterRun, hcancel, epochStep, hirev, iter, ensureCurrentNotReorged,
      hihash, hiend, hinle, hifetch, hicb]
  · intro fuel
    simp [IterRun, hcancelr, epochStep, hjrev, reverseIter,
      ensureCurrentNotReorged, hjhash, hjnle, hjfetch, hjcb]

/-- A callback that invokes end-iteration and returns nil. -/
def endCb : OnBlocksFunc := fun _ _ =>
  { updates := [], endIter := true, err := none }

/-- C6 (witness).  Forward: cursor 0, destination 10, batch 2 — blocks
remain after the epoch, yet the run stops.  Reverse: cursor 10 walking to 0,
batch 2 — likewise. -/
theorem c6_end_iteration_witness :
    (IterRun (plainWorld (flatChain 10) endCb) 1 0 (fwdState 2 0 10 0) =
      some (.ok,
        { fwdState 2 0 10 0 with isEnd := true },
        [.rpc (.headerByHash 0), .rpc (.headerByNumber (some 2)),
         .onBlocks { number := 0, hash := 0 } { number := 2, hash := 2 }])) ∧
    (IterRun (plainWorld (flatChain 10) endCb) 1 0 (revState 2 0 10 10) =
      some (.ok,
        { revState 2 0 10 10 with
            current := { number := 8, hash := 8 }
            isEnd := true },
        [.rpc (.headerByHash 10), .rpc (.headerByNumber (some 8)),
         .onBlocks { number := 8, hash := 8 } { number := 10, hash := 10 }])) :=
  ⟨(c6_end_iteration_honored (plainWorld (flatChain 10) endCb) 0 0
      (fwdState 2 0 10 0) (revState 2 0 10 10) 10 2 8
      { number := 0, hash := 0 } { number := 10, hash := 10 }
      { number := 2, hash := 2 } { number := 8, hash := 8 } [] []
      rfl rfl rfl rfl rfl (by decide) (by decide) rfl rfl rfl rfl
      (by decide) (by decide) rfl rfl).1 0,
   (c6_end_iteration_honored (plainWorld (flatChain 10) endCb) 0 0
      (fwdState 2 0 10 0) (revState 2 0 10 10) 10 2 8
      { number := 0, hash := 0 } { number := 10, hash := 10 }
      { number := 2, hash := 2 } { number := 8, hash := 8 } [] []
      rfl rfl rfl rfl rfl (by decide) (by decide) rfl rfl rfl rfl
      (by decide) (by decide) rfl rfl).2 0⟩

/-! ## C7: a callback error leaves the cursor (and the epoch) unchanged -/

/-- C7.  In an epoch that reaches the callback (no reorg), if the callback
returns an error without invoking update-cursor, the cursor is unchanged —
only the `isEnd` latch can differ, when the callback also invoked
end-iteration — and retrying the epoch against the same chain recomputes
exactly the same batch boundaries: the retried epoch produces the same
outcome, the same state and the same events (in particular the same
`onBlocks` boundary pair).  Forward state `i`, reverse state `j`. -/
theorem c7_callback_error_frame
    (chain : Chain) (cbF cbR : OnBlocksFunc) (i j : BlockBatchIterator)
    (d eH sH cF cR : Nat) (hi hj eh sh : Header) (bF bR : Bool)
    (hihash : chain.headerByHash i.current.hash = .ok hi)
    (hiend : i.endHeight = some d)
    (hilt : i.current.number < d)
    (heH : eH = if d ≤ (i.current.number + i.blocksReadPerEpoch) % UINT64MOD
                then d else (i.current.number + i.blocksReadPerEpoch) % UINT64MOD)
    (hifetch : chain.headerByNumber (some eH) = .ok eh)
    (hicb : cbF i.current eh = { updates := [], endIter := bF, err := some cF })
    (hjhash : chain.headerByHash j.current.hash = .ok hj)
    (hjgt : j.startHeight < j.current.number)
    (hsH : sH = if (if j.current.number ≤ j.blocksReadPerEpoch then 0
                    else j.current.number - j.blocksReadPerEpoch) ≤ j.startHeight
                then j.startHeight
                else if j.current.number ≤ j.blocksReadPerEpoch then 0
                     else j.current.number - j.blocksReadPerEpoch)
    (hjfetch : chain.headerByNumber (some sH) = .ok sh)
    (hjcb : cbR sh j.current = { updates := [], endIter := bR, err := some cR }) :
    iter chain cbF i =
      (.err (.callback cF), { i with isEnd := i.isEnd || bF },
       [.rpc (.headerByHash i.current.hash), .rpc (.headerByNumber (some eH)),
        .onBlocks i.current eh]) ∧
    iter chain cbF { i with isEnd := i.isEnd || bF } =
      (.err (.callback cF), { i with isEnd := i.isEnd || bF },
       [.rpc (.headerByHash i.current.hash), .rpc (.headerByNumber (some eH)),
        .onBlocks i.current eh]) ∧
    reverseIter chain cbR j =
      (.err (.callback cR), { j with isEnd := j.isEnd || bR },
       [.rpc (.headerByHash j.current.hash), .rpc (.headerByNumber (some sH)),
        .onBlocks sh j.current]) ∧
    reverseIter chain cbR { j with isEnd := j.isEnd || bR } =
      (.err (.callback cR), { j with isEnd := j.isEnd || bR },
       [.rpc (.headerByHash j.current.hash), .rpc (.headerByNumber (some sH)),
        .onBlocks sh j.current]) := by
  have hinle : ¬ d ≤ i.current.number := by omega
  have hjnle : ¬ j.current.number ≤ j.startHeight := by omega
  subst heH hsH
  refine ⟨?_, ?_, ?_, ?_⟩
  · simp [iter, ensureCurrentNotReorged, hihash, hiend, hinle, hifetch, hicb]
  · simp [iter, ensureCurrentNotReorged, hihash, hiend, hinle, hifetch, hicb,
      Bool.or_assoc]
  · simp [reverseIter, ensureCurrentNotReorged, hjhash, hjnle, hjfetch, hjcb]
  · simp [reverseIter, ensureCurrentNotReorged, hjhash, hjnle, hjfetch, hjcb,
      Bool.or_assoc]

/-- A callback that returns error code 5 without touching either
capability. -/
def failCb : OnBlocksFunc := fun _ _ =>
  { updates := [], endIter := false, err := some 5 }

/-- C7 (witness).  Forward cursor 0 (batch 2, destination 10) and reverse
cursor 10 (walking to 0): the failing callback leaves the state untouched
and the retried epoch reproduces the same boundaries `(0, 2)` and
`(8, 10)`. -/
theorem c7_callback_error_witness :
    iter (flatChain 10) failCb (fwdState 2 0 10 0) =
      (.err (.callback 5), { fwdState 2 0 10 0 with isEnd := false },
       [.rpc (.headerByHash 0), .rpc (.headerByNumber (some 2)),
        .onBlocks { number := 0, hash := 0 } { number := 2, hash := 2 }]) ∧
    iter (flatChain 10) failCb { fwdState 2 0 10 0 with isEnd := false } =
      (.err (.callback 5), { fwdState 2 0 10 0 with isEnd := false },
       [.rpc (.headerByHash 0), .rpc (.headerByNumber (some 2)),
        .onBlocks { number := 0, hash := 0 } { number := 2, hash := 2 }]) ∧
    reverseIter (flatChain 10) failCb (revState 2 0 10 10) =
      (.err (.callback 5), { revState 2 0 10 10 with isEnd := false },
       [.rpc (.headerByHash 10), .rpc (.headerByNumber (some 8)),
        .onBlocks { number := 8, hash := 8 } { number := 10, hash := 10 }]) ∧
    reverseIter (flatChain 10) failCb { revState 2 0 10 10 with isEnd := false } =
      (.err (.callback 5), { revState 2 0 10 10 with isEnd := false },
       [.rpc (.headerByHash 10), .rpc (.headerByNumber (some 8)),
        .onBlocks { number := 8, hash := 8 } { number := 10, hash := 10 }]) :=
  c7_callback_error_frame (flatChain 10) failCb failCb
    (fwdState 2 0 10 0) (revState 2 0 10 10) 10 2 8 5 5
    { number := 0, hash := 0 } { number := 10, hash := 10 }
    { number := 2, hash := 2 } { number := 8, hash := 8 } false false
    rfl rfl (by decide) (by decide) rfl rfl rfl (by decide) (by decide) rfl rfl

/-! ## C8: reverse batch-start computation and clamping -/

/-- C8.  For a reverse epoch with cursor height `h = j.current.number` and
batch size `B = j.blocksReadPerEpoch` that reaches the callback: the
candidate start height `c` computed by the code equals `h − B` when
`h > B` and `0` when `h ≤ B` — i.e. the integer `max 0 (h − B)`, with no
unsigned underflow — and when `c ≤ start height` the fetched batch start is
clamped to the start height with the epoch marked final (it signals
range-exhausted rather than continue). -/
theorem c8_reverse_candidate_clamp
    (chain : Chain) (cb : OnBlocksFunc) (j : BlockBatchIterator)
    (c s : Nat) (hj sh : Header)
    (hjhash : chain.headerByHash j.current.hash = .ok hj)
    (hjgt : j.startHeight < j.current.number)
    (hc : c = if j.current.number ≤ j.blocksReadPerEpoch then 0
              else j.current.number - j.blocksReadPerEpoch)
    (hs : s = if c ≤ j.startHeight then j.startHeight else c)
    (hfetch : chain.headerByNumber (some s) = .ok sh)
    (hcb : cb sh j.current = { updates := [], endIter := false, err := none })
    (hnoEnd : j.isEnd = false) :
    (c : Int) = max 0 ((j.current.number : Int) - (j.blocksReadPerEpoch : Int)) ∧
    reverseIter chain cb j =
      ((if c ≤ j.startHeight then .eof else .cont),
       { j with current := sh },
       [.rpc (.headerByHash j.current.hash), .rpc (.headerByNumber (some s)),
        .onBlocks sh j.current]) := by
  have hjnle : ¬ j.current.number ≤ j.startHeight := by omega
  constructor
  · subst hc
    split <;> simp [max_def] <;> split <;> omega
  · subst hc hs
    simp [reverseIter, ensureCurrentNotReorged, hjhash, hjnle, hfetch, hcb, hnoEnd]
    split <;> simp_all
    rcases le_or_lt j.current.number (j.startHeight + j.blocksReadPerEpoch) with
      hle | hlt2
    · have h1 : ¬ j.startHeight < j.current.number - j.blocksReadPerEpoch := by omega
      simp [h1, hle]
    · have h1 : j.startHeight < j.current.number - j.blocksReadPerEpoch := by omega
      have h2 : ¬ j.current.number ≤ j.startHeight + j.blocksReadPerEpoch := by omega
      simp [h1, h2]

/-- C8 (witness).  Cursor 6, batch 3, start 4: candidate `6 − 3 = 3` is
clamped to 4 and the epoch is final.  Cursor 6, batch 10, start 0: the
subtraction would underflow, the candidate is floored to 0. -/
theorem c8_reverse_candidate_witness :
    (((3 : Nat) : Int) = max 0 (((6 : Nat) : Int) - ((3 : Nat) : Int)) ∧
     reverseIter (flatChain 20) nopCb (revState 3 4 20 6) =
       (.eof, { revState 3 4 20 6 with current := { number := 4, hash := 4 } },
        [.rpc (.headerByHash 6), .rpc (.headerByNumber (some 4)),
         .onBlocks { number := 4, hash := 4 } { number := 6, hash := 6 }])) ∧
    (((0 : Nat) : Int) = max 0 (((6 : Nat) : Int) - ((10 : Nat) : Int)) ∧
     reverseIter (flatChain 20) nopCb (revState 10 0 20 6) =
       (.eof, { revState 10 0 20 6 with current := { number := 0, hash := 0 } },
        [.rpc (.headerByHash 6), .rpc (.headerByNumber (some 0)),
         .onBlocks { number := 0, hash := 0 } { number := 6, hash := 6 }])) :=
  ⟨c8_reverse_candidate_clamp (flatChain 20) nopCb (revState 3 4 20 6) 3 4
     { number := 6, hash := 6 } { number := 4, hash := 4 }
     rfl (by decide) (by decide) (by decide) rfl rfl rfl,
   c8_reverse_candidate_clamp (flatChain 20) nopCb (revState 10 0 20 6) 0 0
     { number := 6, hash := 6 } { number := 0, hash := 0 }
     rfl (by decide) (by decide) (by decide) rfl rfl rfl⟩

/-! ## C9: the return discipline of the Iter driver -/

/-- C9.  Cancellation is checked before each epoch attempt: a pending
cancellation terminates the loop immediately — no epoch runs, no retry, for
any remaining fuel — and `Iter` returns the cancellation error.  Otherwise a
range-exhausted epoch ends the run with a nil (`ok`) return, and an epoch
error makes the driver retry from the next attempt (the run continues with
the epoch's events prefixed). -/
theorem c9_iter_return_discipline
    (w : IterWorld) (k : Nat) (i : BlockBatchIterator) :
    (ctxCancelled w k = true →
      ∀ fuel, IterRun w (fuel + 1) k i = some (.ctxErr, i, [])) ∧
    (ctxCancelled w k = false →
      ∀ i2 ev, epochStep w k i = (.eof, i2, ev) →
        ∀ fuel, IterRun w (fuel + 1) k i = some (.ok, i2, ev)) ∧
    (ctxCancelled w k = false →
      ∀ e i2 ev, epochStep w k i = (.err e, i2, ev) →
        ∀ fuel, IterRun w (fuel + 1) k i =
          match IterRun w fuel (k + 1) i2 with
          | none => none
          | some (r, i3, ev2) => some (r, i3, ev ++ ev2)) := by
  refine ⟨?_, ?_, ?_⟩
  · intro hc fuel
    simp [IterRun, hc]
  · intro hc i2 ev hstep fuel
    simp [IterRun, hc, hstep]
  · intro hc e i2 ev hstep fuel
    simp [IterRun, hc, hstep]

/-- A world that is cancelled from attempt 0 onwards. -/
def cancelWorld : IterWorld where
  cancelAt := some 0
  envs := fun _ => { chain := flatChain 5, cb := nopCb }

/-- A chain whose hash lookups fail with a connectivity error (so every
epoch attempt fails its reorg check). -/
def hashFailChain : Chain where
  chainID := .ok 1
  headerByNumber := fun n =>
    match n with
    | none => .ok { number := 50, hash := 50 }
    | some m => .ok { number := m, hash := m }
  headerByHash := fun _ => .error (.rpc 3)
  blockNumber := .ok 50

/-- C9 (witness).  A cancelled attempt returns the cancellation error with
no epoch run; an exhausted range returns nil; a failing epoch retries —
with fuel 1 the retry is still pending, so the bounded run yields `none`. -/
theorem c9_iter_return_witness :
    IterRun cancelWorld 1 0 (fwdState 2 0 5 5) =
      some (.ctxErr, fwdState 2 0 5 5, []) ∧
    IterRun (plainWorld (flatChain 5) nopCb) 1 0 (fwdState 2 0 5 5) =
      some (.ok, fwdState 2 0 5 5, [.rpc (.headerByHash 5)]) ∧
    IterRun (plainWorld hashFailChain nopCb) 1 0 (fwdState 2 0 5 5) = none :=
  ⟨(c9_iter_return_discipline cancelWorld 0 (fwdState 2 0 5 5)).1 rfl 0,
   (c9_iter_return_discipline (plainWorld (flatChain 5) nopCb) 0
      (fwdState 2 0 5 5)).2.1 rfl (fwdState 2 0 5 5) [.rpc (.headerByHash 5)]
      (by decide) 0,
   (c9_iter_return_discipline (plainWorld hashFailChain nopCb) 0
      (fwdState 2 0 5 5)).2.2 rfl (.reorgCheck (.rpc 3)) (fwdState 2 0 5 5)
      [.rpc (.headerByHash 5)] (by decide) 0⟩

/-! ## C10: forward construction still performs (and checks) the end lookup -/

/-- C10.  For every forward-mode construction that passes validation and the
start-header fetch, the constructor performs a second header lookup at the
configured end height (or at the latest head, `none`, when no end height is
configured) as its third network call; if that lookup fails construction
aborts with the end-header lookup error, and if it succeeds the fetched end
header is discarded — the cursor is seeded with the start-height header. -/
theorem c10_forward_end_lookup
    (chain : Chain) (cfg : BlockBatchIteratorConfig) (s cid : Nat) (sh : Header)
    (hclient : cfg.clientPresent = true)
    (hcb : cfg.onBlocksPresent = true)
    (hrev : cfg.reverse = false)
    (hcid : chain.chainID = .ok cid)
    (hstart : cfg.startHeight = some s)
    (hord : ∀ e, cfg.endHeight = some e → s ≤ e)
    (hsh : chain.headerByNumber (some s) = .ok sh) :
    (NewBlockBatchIterator chain cfg).2 =
      [.rpc .chainID, .rpc (.headerByNumber (some s)),
       .rpc (.headerByNumber cfg.endHeight)] ∧
    (∀ e, chain.headerByNumber cfg.endHeight = .error e →
      (NewBlockBatchIterator chain cfg).1 = .error (.endHeaderLookup e)) ∧
    (∀ eh, chain.headerByNumber cfg.endHeight = .ok eh →
      (NewBlockBatchIterator chain cfg).1 = .ok
        { chainID := cid
          blocksReadPerEpoch := cfg.maxBlocksReadPerEpoch.getD DefaultBlocksReadPerEpoch
          startHeight := s
          endHeight := cfg.endHeight
          current := sh
          isEnd := false
          reverse := false
          reorgRewindDepth := 0
          retryInterval := cfg.retryInterval.getD DefaultRetryInterval }) := by
  have hnoAbove :
      (match cfg.endHeight with
       | some e => decide (e < s)
       | none => false) = false := by
    rcases he : cfg.endHeight with _ | e
    · rfl
    · have := hord e he
      simp [Nat.not_lt.mpr this]
  refine ⟨?_, ?_, ?_⟩
  · rcases hend2 : chain.headerByNumber cfg.endHeight with e2 | eh2 <;>
      simp [NewBlockBatchIterator, hclient, hcb, hrev, hcid, hstart, hnoAbove,
        hsh, hend2]
  · intro e hend2
    simp [NewBlockBatchIterator, hclient, hcb, hrev, hcid, hstart, hnoAbove,
      hsh, hend2]
  · intro eh hend2
    simp [NewBlockBatchIterator, hclient, hcb, hrev, hcid, hstart, hnoAbove,
      hsh, hend2]

/-- A forward config with both heights set (start 2, end 9, batch 4). -/
def cfgFwdBounded : BlockBatchIteratorConfig where
  clientPresent := true
  maxBlocksReadPerEpoch := some 4
  startHeight := some 2
  endHeight := some 9
  onBlocksPresent := true
  reverse := false
  reorgRewindDepth := none
  retryInterval := none

/-- A forward config with no end height (start 2). -/
def cfgFwdUnbounded : BlockBatchIteratorConfig where
  clientPresent := true
  maxBlocksReadPerEpoch := some 4
  startHeight := some 2
  endHeight := none
  onBlocksPresent := true
  reverse := false
  reorgRewindDepth := none
  retryInterval := none

/-- A chain whose latest-header lookup fails with a connectivity error while
numbered lookups succeed. -/
def latestFailChain : Chain where
  chainID := .ok 1
  headerByNumber := fun n =>
    match n with
    | none => .error (.rpc 7)
    | some m => .ok { number := m, hash := m }
  headerByHash := fun h => .ok { number := h, hash := h }
  blockNumber := .ok 50

/-- C10 (witness).  Bounded forward construction fetches the end header at
height 9 and discards it (cursor = start header at height 2); unbounded
forward construction fetches the latest header and aborts when that lookup
fails. -/
theorem c10_forward_end_lookup_witness :
    (NewBlockBatchIterator (flatChain 9) cfgFwdBounded).2 =
      [.rpc .chainID, .rpc (.headerByNumber (some 2)),
       .rpc (.headerByNumber (some 9))] ∧
    (NewBlockBatchIterator (flatChain 9) cfgFwdBounded).1 = .ok
      { chainID := 1
        blocksReadPerEpoch := 4
        startHeight := 2
        endHeight := some 9
        current := { number := 2, hash := 2 }
        isEnd := false
        reverse := false
        reorgRewindDepth := 0
        retryInterval := DefaultRetryInterval } ∧
    (NewBlockBatchIterator latestFailChain cfgFwdUnbounded).2 =
      [.rpc .chainID, .rpc (.headerByNumber (some 2)),
       .rpc (.headerByNumber none)] ∧
    (NewBlockBatchIterator latestFailChain cfgFwdUnbounded).1 =
      .error (.endHeaderLookup (.rpc 7)) :=
  ⟨(c10_forward_end_lookup (flatChain 9) cfgFwdBounded 2 1
      { number := 2, hash := 2 } rfl rfl rfl rfl rfl
      (by intro e he; injection he with h; omega) rfl).1,
   (c10_forward_end_lookup (flatChain 9) cfgFwdBounded 2 1
      { number := 2, hash := 2 } rfl rfl rfl rfl rfl
      (by intro e he; injection he with h; omega) rfl).2.2
      { number := 9, hash := 9 } rfl,
   (c10_forward_end_lookup latestFailChain cfgFwdUnbounded 2 1
      { number := 2, hash := 2 } rfl rfl rfl rfl rfl
      (by intro e he; simp [cfgFwdUnbounded] at he) rfl).1,
   (c10_forward_end_lookup latestFailChain cfgFwdUnbounded 2 1
      { number := 2, hash := 2 } rfl rfl rfl rfl rfl
      (by intro e he; simp [cfgFwdUnbounded] at he) rfl).2.1 (.rpc 7) rfl⟩

/-! ## C3: gap-free forward coverage -/

/-- The boundary-height pairs passed to the callback, extracted from an
event list. -/
def cbPairs (ev : List Event) : List (Nat × Nat) :=
  ev.filterMap fun e =>
    match e with
    | .onBlocks s f => some (s.number, f.number)
    | _ => none

theorem cbPairs_append (l1 l2 : List Event) :
    cbPairs (l1 ++ l2) = cbPairs l1 ++ cbPairs l2 := by
  simp [cbPairs]

/-- The boundary pairs a forward run produces from cursor height `h` with
batch size `B` towards destination `E` (`fuel` bounds the epoch count):
each epoch spans from `h` to `min (h + B) E`. -/
def fwdPairs (B E : Nat) : Nat → Nat → List (Nat × Nat)
  | 0, _ => []
  | fuel + 1, h =>
    if h < E then (h, min (h + B) E) :: fwdPairs B E fuel (min (h + B) E)
    else []

theorem fwdPairs_stop (B E : Nat) : ∀ fuel, fwdPairs B E fuel E = [] := by
  intro fuel
  cases fuel with
  | zero => rfl
  | succ f => simp [fwdPairs]

/-- The coverage property of C3 for a pair list starting at `s`: the list is
non-empty, its first pair starts at `s`, each subsequent pair starts at the
previous pair's end, every non-final pair spans exactly `B`, and the final
pair ends at `E` spanning at most `B`. -/
def WellChained (B E : Nat) : Nat → List (Nat × Nat) → Prop
  | _, [] => False
  | s, [(a, b)] => a = s ∧ b = E ∧ b - a ≤ B
  | s, (a, b) :: p :: l => a = s ∧ b - a = B ∧ WellChained B E b (p :: l)

/-- One forward epoch against the reorg-free `flatChain E` with the
do-nothing callback, from cursor height `h < E`: the callback sees the pair
`(h, min (h + B) E)` and the cursor advances to the batch end. -/
theorem iter_flat_step (B S E h : Nat) (hhE : h < E) (hEB : E + B < UINT64MOD) :
    iter (flatChain E) nopCb (fwdState B S E h) =
      ((if h + B < E then .cont else .eof),
       fwdState B S E (min (h + B) E),
       [.rpc (.headerByHash h), .rpc (.headerByNumber (some (min (h + B) E))),
        .onBlocks { number := h, hash := h }
          { number := min (h + B) E, hash := min (h + B) E }]) := by
  have hmod : (h + B) % UINT64MOD = h + B := Nat.mod_eq_of_lt (by omega)
  have hnle : ¬ E ≤ h := by omega
  by_cases hc : h + B < E
  · have h1 : ¬ E ≤ h + B := by omega
    have hmin : min (h + B) E = h + B := by omega
    simp [iter, ensureCurrentNotReorged, flatChain, fwdState, nopCb, hmod, hnle,
      h1, hmin, hc]
  · have h1 : E ≤ h + B := by omega
    have hmin : min (h + B) E = E := by omega
    simp [iter, ensureCurrentNotReorged, flatChain, fwdState, nopCb, hmod, hnle,
      h1, hmin, hc]

theorem epochStep_fwd (c : Chain) (f : OnBlocksFunc) (k B S E h : Nat) :
    epochStep (plainWorld c f) k (fwdState B S E h) =
      iter c f (fwdState B S E h) := rfl

/-- A forward run on `flatChain E` with the do-nothing callback terminates
with a nil return, the cursor parked at the destination, and its callback
pairs are exactly `fwdPairs`. -/
theorem iterRun_flat (B S E : Nat) (hB : 0 < B) (hEB : E + B < UINT64MOD) :
    ∀ fuel h k, h < E → E - h ≤ fuel →
      ∃ ev, IterRun (plainWorld (flatChain E) nopCb) fuel k (fwdState B S E h) =
          some (.ok, fwdState B S E E, ev) ∧
        cbPairs ev = fwdPairs B E fuel h := by
  intro fuel
  induction fuel with
  | zero => intro h k hhE hfuel; omega
  | succ fuel ih =>
    intro h k hhE hfuel
    have hcancel : ctxCancelled (plainWorld (flatChain E) nopCb) k = false := rfl
    have hstep := iter_flat_step B S E h hhE hEB
    by_cases hc : h + B < E
    · have hmin : min (h + B) E = h + B := by omega
      rw [hmin, if_pos hc] at hstep
      obtain ⟨ev, hrun, hpairs⟩ := ih (h + B) (k + 1) (by omega) (by omega)
      refine ⟨[.rpc (.headerByHash h), .rpc (.headerByNumber (some (h + B))),
        .onBlocks { number := h, hash := h } { number := h + B, hash := h + B }]
        ++ ev, ?_, ?_⟩
      · simp only [IterRun, hcancel, epochStep_fwd, hstep, hrun, Bool.false_eq_true,
          if_false]
      · rw [cbPairs_append, hpairs]
        simp only [fwdPairs, if_pos hhE, hmin]
        simp [cbPairs]
    · have hmin : min (h + B) E = E := by omega
      rw [hmin, if_neg hc] at hstep
      refine ⟨[.rpc (.headerByHash h), .rpc (.headerByNumber (some E)),
        .onBlocks { number := h, hash := h } { number := E, hash := E }], ?_, ?_⟩
      · simp only [IterRun, hcancel, epochStep_fwd, hstep, Bool.false_eq_true,
          if_false]
      · simp only [fwdPairs, if_pos hhE, hmin, fwdPairs_stop]
        simp [cbPairs]

/-- `fwdPairs` satisfies the coverage property whenever the fuel suffices. -/
theorem fwdPairs_wellChained (B E : Nat) (hB : 0 < B) :
    ∀ fuel h, h < E → E - h ≤ fuel →
      WellChained B E h (fwdPairs B E fuel h) := by
  intro fuel
  induction fuel with
  | zero => intro h hhE hf; omega
  | succ fuel ih =>
    intro h hhE hf
    by_cases hc : h + B < E
    · have hmin : min (h + B) E = h + B := by omega
      have htail := ih (h + B) (by omega) (by omega)
      have hne : fwdPairs B E fuel (h + B) ≠ [] := by
        cases fuel with
        | zero => omega
        | succ f => simp [fwdPairs, hc]
      simp only [fwdPairs, if_pos hhE, hmin]
      rcases hl : fwdPairs B E fuel (h + B) with _ | ⟨p, l⟩
      · exact absurd hl hne
      · rw [hl] at htail
        exact ⟨rfl, by omega, htail⟩
    · have hmin : min (h + B) E = E := by omega
      simp only [fwdPairs, if_pos hhE, hmin, fwdPairs_stop]
      exact ⟨rfl, rfl, by omega⟩

/-- The config of a bounded forward run: start `S`, end `E`, batch `B`. -/
def cfgFwd (S E B : Nat) : BlockBatchIteratorConfig where
  clientPresent := true
  maxBlocksReadPerEpoch := some B
  startHeight := some S
  endHeight := some E
  onBlocksPresent := true
  reverse := false
  reorgRewindDepth := none
  retryInterval := none

/-- C3.  For a forward run with start `S < E`, end `E`, batch size
`0 < B` (heights in `uint64` range), against a reorg-free chain with a
callback that always succeeds without using either capability: construction
seeds the cursor at `S`, the run terminates successfully with the cursor at
`E`, and the boundary pairs passed to the callback chain without gaps —
first start is `S`, each subsequent start equals the previous end, the final
end is `E`, every non-final pair spans exactly `B` and the final pair spans
at most `B` (`WellChained`). -/
theorem c3_forward_coverage (S E B : Nat) (hSE : S < E) (hB : 0 < B)
    (hEB : E + B < UINT64MOD) :
    (NewBlockBatchIterator (flatChain E) (cfgFwd S E B)).1 =
      .ok (fwdState B S E S) ∧
    ∃ ev,
      IterRun (plainWorld (flatChain E) nopCb) (E - S) 0 (fwdState B S E S) =
        some (.ok, fwdState B S E E, ev) ∧
      WellChained B E S (cbPairs ev) := by
  constructor
  · have hlt : ¬ E < S := by omega
    simp only [NewBlockBatchIterator, cfgFwd, flatChain, fwdState]
    simp [hlt]
  · obtain ⟨ev, hrun, hpairs⟩ :=
      iterRun_flat B S E hB hEB (E - S) S 0 hSE (by omega)
    refine ⟨ev, hrun, ?_⟩
    rw [hpairs]
    exact fwdPairs_wellChained B E hB (E - S) S hSE (by omega)

/-- C3 (witness).  The spec's concrete scenario: S = 100, E = 250, B = 100;
two epochs, pairs (100, 200) and (200, 250). -/
theorem c3_forward_coverage_witness :
    (NewBlockBatchIterator (flatChain 250) (cfgFwd 100 250 100)).1 =
      .ok (fwdState 100 100 250 100) ∧
    ∃ ev,
      IterRun (plainWorld (flatChain 250) nopCb) 150 0
          (fwdState 100 100 250 100) =
        some (.ok, fwdState 100 100 250 250, ev) ∧
      WellChained 100 250 100 (cbPairs ev) :=
  c3_forward_coverage 100 250 100 (by decide) (by decide) (by decide)
